import Mathlib

/- Verification of `check_init_all`: a shallow embedding of
`src/check_init_all/__init__.py` (the authoritative implementation of the
tool; `src/scripts/check_init_all.py` is an earlier near-duplicate variant).

The Python parser (`ast.parse` / `ast.walk`) is an external collaborator of
the tool, so a parsed file is modelled as the walk-order sequence of the
nodes the tool inspects, together with the raw source text.  All machine-level
operations the tool performs (string splitting, regex search for the noqa
directive, set arithmetic, `sorted`, slice assignment) are embedded as
executable Lean functions translated from the source. -/

namespace CheckInitAll

/- Lexicographic (code-point) comparison of char lists, `listLeChar a b = true`
iff `a` precedes or equals `b`; this is exactly how Python compares `str`
values in `sorted`.  (It is written as a structurally recursive Bool-valued
function so that the kernel can evaluate concrete comparisons.) -/
def listLeChar : List Char → List Char → Bool
  | [], _ => true
  | _ :: _, [] => false
  | a :: as, b :: bs => if a < b then true else if b < a then false else listLeChar as bs

/- The Python `str` ordering used by `sorted`: case-sensitive lexicographic
comparison of the code-point sequences. -/
def pyStrLe (a b : String) : Prop := listLeChar a.data b.data = true

instance : DecidableRel pyStrLe := fun _ _ => inferInstanceAs (Decidable (_ = true))

theorem listLeChar_total (a b : List Char) : listLeChar a b = true ∨ listLeChar b a = true := by
  induction a generalizing b with
  | nil => left; rfl
  | cons x xs ih =>
    cases b with
    | nil => right; rfl
    | cons y ys =>
      rcases lt_trichotomy x y with h | h | h
      · left; simp [listLeChar, h]
      · subst h
        rcases ih ys with h' | h' <;> [left; right] <;> simp [listLeChar, h', lt_irrefl]
      · right; simp [listLeChar, h]

theorem listLeChar_trans {a b c : List Char} (hab : listLeChar a b = true)
    (hbc : listLeChar b c = true) : listLeChar a c = true := by
  induction a generalizing b c with
  | nil => rfl
  | cons x xs ih =>
    match b, c with
    | [], _ => simp [listLeChar] at hab
    | _ :: _, [] => simp [listLeChar] at hbc
    | y :: ys, z :: zs =>
      by_cases hxy : x < y
      · by_cases hyz : y < z
        · simp [listLeChar, lt_trans hxy hyz]
        · by_cases hzy : z < y
          · simp [listLeChar, hyz, hzy] at hbc
          · have hyz' : y = z := le_antisymm (not_lt.1 hzy) (not_lt.1 hyz)
            subst hyz'; simp [listLeChar, hxy]
      · by_cases hyx : y < x
        · simp [listLeChar, hxy, hyx] at hab
        · have hxy' : x = y := le_antisymm (not_lt.1 hyx) (not_lt.1 hxy)
          subst hxy'
          simp only [listLeChar, if_neg hxy, if_neg hyx] at hab
          by_cases hxz : x < z
          · simp [listLeChar, hxz]
          · by_cases hzx : z < x
            · simp [listLeChar, hxz, hzx] at hbc
            · simp only [listLeChar, if_neg hxz, if_neg hzx] at hbc ⊢
              exact ih hab hbc

theorem listLeChar_antisymm {a b : List Char} (hab : listLeChar a b = true)
    (hba : listLeChar b a = true) : a = b := by
  induction a generalizing b with
  | nil =>
    cases b with
    | nil => rfl
    | cons y ys => simp [listLeChar] at hba
  | cons x xs ih =>
    cases b with
    | nil => simp [listLeChar] at hab
    | cons y ys =>
      by_cases hxy : x < y
      · simp [listLeChar, hxy, lt_asymm hxy] at hba
      · by_cases hyx : y < x
        · simp [listLeChar, hxy, hyx] at hab
        · have hxy' : x = y := le_antisymm (not_lt.1 hyx) (not_lt.1 hxy)
          subst hxy'
          simp only [listLeChar, if_neg hxy] at hab hba
          rw [ih hab hba]

instance : IsTotal String pyStrLe := ⟨fun a b => listLeChar_total a.data b.data⟩

instance : IsTrans String pyStrLe := ⟨fun _ _ _ => listLeChar_trans⟩

instance : IsAntisymm String pyStrLe :=
  ⟨fun _ _ hab hba => String.toList_inj.mp (listLeChar_antisymm hab hba)⟩

/- Python `sorted` on a list of strings: the unique `pyStrLe`-sorted
permutation of the list (duplicates kept). -/
def pySortedList (l : List String) : List String := l.insertionSort pyStrLe

/- Python `sorted` applied to a multiset of strings (well defined because two
sorted permutations of the same multiset coincide). -/
def pySortedMultiset (s : Multiset String) : List String :=
  Quot.liftOn s (fun l => pySortedList l) (by
    intro a b hab
    exact List.eq_of_perm_of_sorted
      (((List.perm_insertionSort _ a).trans hab).trans (List.perm_insertionSort _ b).symm)
      (List.sorted_insertionSort _ a) (List.sorted_insertionSort _ b))

/- Python `sorted(s)` for a set `s` of strings. -/
def pySortedSet (s : Finset String) : List String := pySortedMultiset s.val

theorem pySortedMultiset_sorted (s : Multiset String) :
    (pySortedMultiset s).Sorted pyStrLe := by
  induction s using Quot.inductionOn with
  | _ l => exact List.sorted_insertionSort pyStrLe l

theorem mem_pySortedMultiset {x : String} {s : Multiset String} :
    x ∈ pySortedMultiset s ↔ x ∈ s := by
  induction s using Quot.inductionOn with
  | _ l => exact (List.perm_insertionSort pyStrLe l).mem_iff

theorem pySortedMultiset_nodup {s : Multiset String} (h : s.Nodup) :
    (pySortedMultiset s).Nodup := by
  induction s using Quot.inductionOn with
  | _ l => exact (List.perm_insertionSort pyStrLe l).nodup_iff.mpr h

theorem pySortedSet_sorted (s : Finset String) : (pySortedSet s).Sorted pyStrLe :=
  pySortedMultiset_sorted s.val

theorem pySortedSet_nodup (s : Finset String) : (pySortedSet s).Nodup :=
  pySortedMultiset_nodup s.nodup

theorem mem_pySortedSet {x : String} {s : Finset String} : x ∈ pySortedSet s ↔ x ∈ s :=
  mem_pySortedMultiset

theorem pySortedList_sorted (l : List String) : (pySortedList l).Sorted pyStrLe :=
  List.sorted_insertionSort pyStrLe l

/- An `alias` node of an import statement: the imported dotted name and the
optional `as` rename, as in `ast.alias`. -/
structure ImportAlias where
  name : String
  asname : Option String
deriving DecidableEq, Repr

/- An element of the right-hand-side list of the located assignment, as
this embedding covers it: a string constant, whose `.s` is its value, or a
node carrying no `.s` attribute at all — an `ast.Name` and every other
non-constant node kind — on which the tool's extraction `elt.s` raises
`AttributeError`.  One further element kind exists in Python and is
deliberately outside this model's domain: a non-string `ast.Constant` such
as the `1` in `__all__ = [1]`, whose deprecated `.s` compatibility alias
silently returns the non-string value; on such an element the program
extracts without error, prints an extra-symbols diagnostic whenever the
intermediate `sorted` calls survive, and then raises `TypeError` (in a
`sorted` over mixed types at lines 144-145 or 188, or in the `','.join` of
the noqa suggestion at line 189) — in every variant before reaching any
write.  No theorem below quantifies over that element kind. -/
inductive Elt where
  | str (s : String)
  | name (id : String)
deriving DecidableEq, Repr

/- An assignment target: a plain `Name` binding or anything else. -/
inductive Target where
  | name (id : String)
  | other
deriving DecidableEq, Repr

/- One node of the walked tree, carrying exactly the attributes
`update_all_in_init` and `get_all_imports` inspect.  `assign` nodes carry the
list right-hand side (`node.value.elts`), the 1-based `lineno` and
`end_lineno`.  All remaining node kinds the walk may yield are `other`. -/
inductive Node where
  | imp (names : List ImportAlias)
  | impFrom (level : Nat) (module : Option String) (names : List ImportAlias)
  | assign (targets : List Target) (elts : List Elt) (lineno : Nat) (endLineno : Nat)
  | other
deriving DecidableEq, Repr

/- A source file together with its parse outcome: `none` models a file on
which `ast.parse` raises `SyntaxError`, `some nodes` the walk-order node
sequence of the parsed tree.  The parser itself is the external collaborator
and is not re-implemented. -/
structure PyFile where
  source : String
  parse : Option (List Node)
deriving DecidableEq, Repr

/- The exceptions the tool raises within this embedding's domain:
`ast.parse` failing, and `elt.s` on an element that lacks the attribute. -/
inductive PyErr where
  | syntaxError
  | attributeError
deriving DecidableEq, Repr

/- The process-wide configuration: `--line-length`, `--double-quotes`,
`--fix` (CLI defaults: 80, off, off). -/
structure Config where
  lineLength : Nat
  useDoubleQuotes : Bool
  fix : Bool
deriving DecidableEq, Repr

/- What the tool writes for one file: nothing, an append (declaration absent),
or a full overwrite (declaration rewritten). -/
inductive FileEffect where
  | none
  | append (text : String)
  | overwrite (text : String)
deriving DecidableEq, Repr

/- One printed diagnostic line, structured: the `missing __all__` error, the
three `print_errors` errors, and the noqa-suggestion note. -/
inductive Diag where
  | missingAll
  | notSorted
  | missingSymbols (ms : List String)
  | extraSymbols (es : List String)
  | noqaNote (suggestion : String)
deriving DecidableEq, Repr

/- The observable outcome of processing one file: the diagnostics printed and
the write effect performed. -/
structure FileResult where
  diags : List Diag
  effect : FileEffect
deriving DecidableEq, Repr

/- Python `name.split(".")[-1]`: the suffix after the last dot (the whole
string when no dot occurs). -/
def lastSegment (s : String) : String :=
  String.mk ((s.data.reverse.takeWhile (fun c => c ≠ '.')).reverse)

/- Python `name.split(".")[0]`: the prefix before the first dot. -/
def firstSegment (s : String) : String :=
  String.mk (s.data.takeWhile (fun c => c ≠ '.'))

/- Python truthiness of `node.module` (an optional string): `None` and the
empty string are falsy. -/
def pyTruthy (o : Option String) : Bool :=
  match o with
  | Option.none => false
  | Option.some s => !s.isEmpty

/- The names one walked node contributes in the loop of `get_all_imports`
(`__init__.py` lines 26-40): `alias.asname or alias.name` for plain imports;
for from-imports the same, guarded by `level == 0 and module` or `level > 0`. -/
def collectedNames (n : Node) : List String :=
  match n with
  | Node.imp names => names.map (fun a => a.asname.getD a.name)
  | Node.impFrom level module names =>
    if level == 0 then
      if pyTruthy module then names.map (fun a => a.asname.getD a.name) else []
    else
      names.map (fun a => a.asname.getD a.name)
  | _ => []

/- `get_all_imports` (`__init__.py` lines 24-45): collect the bound names of
every import statement in the walked tree, then map every collected name to
`name.split(".")[-1]` and return the resulting set. -/
def get_all_imports (nodes : List Node) : Finset String :=
  ((nodes.flatMap collectedNames).map lastSegment).toFinset

/- The characters the noqa regex admits inside the bracket:
`[a-zA-Z0-9_, ]`. -/
def noqaChar (c : Char) : Bool :=
  c.isAlphanum || c == '_' || c == ',' || c == ' '

/- The fixed text of the noqa pattern. -/
def noqaPat : List Char := "# noqa: ALL".data

/- The suffix following the first occurrence of `# noqa: ALL` in the line, or
`none` when the pattern does not occur (the `search` of the regex). -/
def findAfterPat : List Char → Option (List Char)
  | [] => Option.none
  | c :: rest =>
    if noqaPat.isPrefixOf (c :: rest) then Option.some ((c :: rest).drop noqaPat.length)
    else findAfterPat rest

/- The outcome of `parse_noqa`: exempt everything, or exempt a named set. -/
inductive Noqa where
  | all
  | names (s : Finset String)
deriving DecidableEq

/- Python `str.split(sep)` for a single-character separator, on char lists:
every separator-delimited piece, in order, empty pieces kept. -/
def pySplitChar (sep : Char) : List Char → List Char → List (List Char)
  | [], acc => [acc.reverse]
  | c :: rest, acc =>
    if c = sep then acc.reverse :: pySplitChar sep rest []
    else pySplitChar sep rest (c :: acc)

/- Python `str.strip()` on a char list whose only whitespace is the space
character (the bracket class admits no other whitespace): drop spaces at
both ends. -/
def pyStrip (cs : List Char) : List Char :=
  ((cs.dropWhile (fun c => c = ' ')).reverse.dropWhile (fun c => c = ' ')).reverse

/- `parse_noqa` (`__init__.py` lines 49-66): regex-search the line for
`# noqa: ALL` optionally followed by `[name, ...]`.  A well-bracketed
nonempty run of admissible characters yields the exempted set
(`set(map(str.strip, group.split(",")))`); otherwise the bare marker means
exempt-all; no pattern occurrence yields `none`. -/
def parse_noqa (line : String) : Option Noqa :=
  match findAfterPat line.data with
  | Option.none => Option.none
  | Option.some rest =>
    match rest with
    | '[' :: rest2 =>
      let run := rest2.takeWhile noqaChar
      let after := rest2.drop run.length
      if run ≠ [] ∧ after.head? = Option.some ']' then
        Option.some (Noqa.names
          (((pySplitChar ',' run []).map (fun p => String.mk (pyStrip p))).toFinset))
      else Option.some Noqa.all
    | _ => Option.some Noqa.all

/- The single-line rendering of the declaration, `__all__ = [sym1, sym2, ...]`
with each symbol quoted. -/
def singleLineForm (symbols : List String) (useDoubleQuotes : Bool) : String :=
  let quoteChar := if useDoubleQuotes then "\"" else "'"
  "__all__ = [" ++ String.intercalate ", " (symbols.map (fun s => quoteChar ++ s ++ quoteChar)) ++ "]"

/- The multi-line rendering: opening bracket on the declaration line, each
symbol on a 4-space-indented line of its own, closing bracket on its own
line. -/
def multiLineForm (symbols : List String) (useDoubleQuotes : Bool) : String :=
  let quoteChar := if useDoubleQuotes then "\"" else "'"
  "__all__ = [\n    " ++
    String.intercalate ",\n    " (symbols.map (fun s => quoteChar ++ s ++ quoteChar)) ++ "\n]"

/- `format_all_string` (`__init__.py` lines 68-92): emit the single-line form
when `len("__all__ = [") + len(", ".join(items)) + 2 <= line_length`,
otherwise the multi-line form. -/
def format_all_string (symbols : List String) (lineLength : Nat) (useDoubleQuotes : Bool) : String :=
  let quoteChar := if useDoubleQuotes then "\"" else "'"
  let allDecl := "__all__ = ["
  let allItems := symbols.map (fun s => quoteChar ++ s ++ quoteChar)
  if allDecl.length + (String.intercalate ", " allItems).length + 2 ≤ lineLength then
    allDecl ++ String.intercalate ", " allItems ++ "]"
  else
    "__all__ = [\n    " ++ String.intercalate ",\n    " allItems ++ "\n]"

/- Python `str.splitlines()` for text whose line terminator is `"\n"` (the
only terminator occurring in the files considered): all newline-separated
pieces, without a final empty piece for a trailing newline. -/
def pySplitlines (s : String) : List String :=
  let parts := (pySplitChar '\n' s.data []).map String.mk
  if parts.getLast? = Option.some "" then parts.dropLast else parts

/- `missing = sorted(imports - set(all_var) - noqa_symbols)`
(`__init__.py` line 143). -/
def missingOf (imports : Finset String) (allVar : List String) (noqa : Finset String) :
    List String :=
  pySortedSet ((imports \ allVar.toFinset) \ noqa)

/- `extra = sorted(set(all_var) - imports - noqa_symbols)`
(`__init__.py` line 144). -/
def extraOf (imports : Finset String) (allVar : List String) (noqa : Finset String) :
    List String :=
  pySortedSet ((allVar.toFinset \ imports) \ noqa)

/- `updated_all = sorted((set(all_var) | set(missing)) - set(extra))`
(`__init__.py` line 147). -/
def updatedAllOf (imports : Finset String) (allVar : List String) (noqa : Finset String) :
    List String :=
  pySortedSet ((allVar.toFinset ∪ (missingOf imports allVar noqa).toFinset) \
    (extraOf imports allVar noqa).toFinset)

/- `print_errors` (`__init__.py` lines 157-190): the list of printed
diagnostics, in print order, including the noqa-suggestion note emitted when
any error was printed. -/
def print_errors (isSorted : Bool) (missing extra : List String) : List Diag :=
  let errs :=
    (if isSorted then [] else [Diag.notSorted]) ++
    (if missing.isEmpty then [] else [Diag.missingSymbols missing]) ++
    (if extra.isEmpty then [] else [Diag.extraSymbols extra])
  if errs.isEmpty then errs
  else
    let ignored := pySortedSet (missing ++ extra).toFinset
    errs ++ [Diag.noqaNote
      (if ignored.isEmpty then "ALL" else "ALL[" ++ String.intercalate "," ignored ++ "]")]

/- `[elt.s for elt in node.value.elts]` (`__init__.py` line 125) on this
embedding's element kinds: extract the string value of every element,
raising `AttributeError` at the first element that has no `.s` attribute (a
`Name` node) rather than being a string constant. -/
def extractStrs : List Elt → Except PyErr (List String)
  | [] => Except.ok []
  | Elt.str s :: rest =>
    match extractStrs rest with
    | Except.ok tl => Except.ok (s :: tl)
    | Except.error e => Except.error e
  | Elt.name _ :: _ => Except.error PyErr.attributeError

/- The located `__all__` declaration: its raw elements and line span. -/
structure AllDecl where
  elts : List Elt
  lineno : Nat
  endLineno : Nat
deriving DecidableEq, Repr

/- The walk loop of `update_all_in_init` (`__init__.py` lines 123-134): the
first assignment whose targets contain a plain `Name` equal to `__all__`. -/
def findAllAssign : List Node → Option AllDecl
  | [] => Option.none
  | Node.assign targets elts lineno endLineno :: rest =>
    if targets.any (fun t =>
        match t with
        | Target.name id => id == "__all__"
        | Target.other => false) then
      Option.some ⟨elts, lineno, endLineno⟩
    else findAllAssign rest
  | _ :: rest => findAllAssign rest

/- `lines[all_start:all_end + 1] = [all_string]` (`__init__.py` line 153):
the line list after replacing the 1-based inclusive span
`lineno..endLineno` with the single formatted block. -/
def rewriteLines (src : String) (lineno endLineno : Nat) (block : String) : List String :=
  (pySplitlines src).take (lineno - 1) ++ [block] ++ (pySplitlines src).drop endLineno

/- `source_lines[all_lineno - 1]` (`__init__.py` line 130): the declaration's
first line, read from the split source. -/
def lineAt (src : String) (lineno : Nat) : String :=
  (pySplitlines src).getD (lineno - 1) ""

/- The tail of `update_all_in_init` once a declaration was located and its
noqa directive is not exempt-all (`__init__.py` lines 143-155): compute
missing/extra/is_sorted, print the errors, and overwrite the file with the
span-rewritten line sequence when fix mode is on and a discrepancy exists. -/
def processDecl (cfg : Config) (source : String) (imports : Finset String)
    (allVar : List String) (lineno endLineno : Nat) (noqa : Finset String) : FileResult :=
  let missing := missingOf imports allVar noqa
  let extra := extraOf imports allVar noqa
  let isSorted : Bool := allVar == pySortedList allVar
  let diags := print_errors isSorted missing extra
  let allString := format_all_string (updatedAllOf imports allVar noqa)
    cfg.lineLength cfg.useDoubleQuotes
  if cfg.fix && (!isSorted || !missing.isEmpty || !extra.isEmpty) then
    ⟨diags, FileEffect.overwrite
      (String.intercalate "\n" (rewriteLines source lineno endLineno allString))⟩
  else
    ⟨diags, FileEffect.none⟩

/- `update_all_in_init` (`__init__.py` lines 95-155).  Parse the file (a
`SyntaxError` propagates), extract the imports, locate the first `__all__`
assignment; when absent, append a freshly formatted declaration and report
`missing __all__`; when present, extract its string elements (an
`AttributeError` propagates), return silently on an exempt-all directive on
its first line, and otherwise reconcile via `processDecl`. -/
def update_all_in_init (cfg : Config) (f : PyFile) : Except PyErr FileResult :=
  match f.parse with
  | Option.none => Except.error PyErr.syntaxError
  | Option.some nodes =>
    let imports := get_all_imports nodes
    match findAllAssign nodes with
    | Option.none =>
      Except.ok ⟨[Diag.missingAll], FileEffect.append
        ("\n" ++ format_all_string (pySortedSet imports) cfg.lineLength cfg.useDoubleQuotes ++ "\n")⟩
    | Option.some d =>
      match extractStrs d.elts with
      | Except.error e => Except.error e
      | Except.ok allVar =>
        match parse_noqa (lineAt f.source d.lineno) with
        | Option.some Noqa.all => Except.ok ⟨[], FileEffect.none⟩
        | Option.some (Noqa.names s) =>
          Except.ok (processDecl cfg f.source imports allVar d.lineno d.endLineno s)
        | Option.none =>
          Except.ok (processDecl cfg f.source imports allVar d.lineno d.endLineno ∅)

/- `check_all_in_paths` (`__init__.py` lines 192-217): process the resolved
files one after the other.  The loop installs no handler, so an exception
raised on one file aborts the whole batch; the model's `Except` bind mirrors
exactly that propagation. -/
def check_all_in_paths (cfg : Config) : List PyFile → Except PyErr (List FileResult)
  | [] => Except.ok []
  | f :: fs =>
    match update_all_in_init cfg f with
    | Except.error e => Except.error e
    | Except.ok r =>
      match check_all_in_paths cfg fs with
      | Except.error e => Except.error e
      | Except.ok rs => Except.ok (r :: rs)

/- The diagnostics printed for one file (none when an exception escaped). -/
def resultDiags : Except PyErr FileResult → List Diag
  | Except.ok r => r.diags
  | Except.error _ => []

/- `s` contains no dot.  In a real Python tree every `as` rename and every
from-import symbol is a plain identifier and hence dot-free; only the module
path of a plain import can be dotted. -/
def noDot (s : String) : Bool := s.data.all (fun c => c ≠ '.')

/- The `as` rename of the alias, when given, is dot-free. -/
def aliasAsnameOk (a : ImportAlias) : Bool :=
  match a.asname with
  | Option.some s => noDot s
  | Option.none => true

/- The aliases of one node are shaped as Python produces them: renames
dot-free everywhere, from-import symbol names dot-free. -/
def nodeAliasesOk : Node → Bool
  | Node.imp names => names.all aliasAsnameOk
  | Node.impFrom _ _ names => names.all (fun a => noDot a.name && aliasAsnameOk a)
  | _ => true

def wellFormedAliases (nodes : List Node) : Bool := nodes.all nodeAliasesOk

/- The bound names of one node as the amended claim words them: for a
plain import the alias if given, else the last path segment of the imported
module path; for a from-import the alias if given, else the imported
symbol's own name. -/
def specBoundNames : Node → List String
  | Node.imp names =>
    names.map (fun a =>
      match a.asname with
      | Option.some s => s
      | Option.none => lastSegment a.name)
  | Node.impFrom level module names =>
    if level == 0 then
      if pyTruthy module then names.map (fun a => a.asname.getD a.name) else []
    else
      names.map (fun a => a.asname.getD a.name)
  | _ => []

/- The import set as the amended claim describes it. -/
def get_all_imports_spec (nodes : List Node) : Finset String :=
  (nodes.flatMap specBoundNames).toFinset

/- The bound names of one node as claim C2 words it verbatim: for a
plain import without alias, the FIRST path segment of the module path. -/
def claimedBoundNames : Node → List String
  | Node.imp names =>
    names.map (fun a =>
      match a.asname with
      | Option.some s => s
      | Option.none => firstSegment a.name)
  | Node.impFrom level module names =>
    if level == 0 then
      if pyTruthy module then names.map (fun a => a.asname.getD a.name) else []
    else
      names.map (fun a => a.asname.getD a.name)
  | _ => []

/- The import set as claim C2 describes it verbatim. -/
def get_all_imports_claimed (nodes : List Node) : Finset String :=
  (nodes.flatMap claimedBoundNames).toFinset

/- Supporting lemmas. -/

theorem takeWhile_of_all {p : Char → Bool} {l : List Char} (h : ∀ c ∈ l, p c = true) :
    l.takeWhile p = l := by
  induction l with
  | nil => rfl
  | cons c cs ih =>
    rw [List.takeWhile_cons, if_pos (h c (List.mem_cons_self c cs))]
    rw [ih (fun x hx => h x (List.mem_cons_of_mem c hx))]

theorem lastSegment_noDot {s : String} (h : noDot s = true) : lastSegment s = s := by
  rw [noDot, List.all_eq_true] at h
  rw [lastSegment, takeWhile_of_all (fun c hc => h c (List.mem_reverse.mp hc)),
    List.reverse_reverse]

theorem collectedNames_map_lastSegment {n : Node} (h : nodeAliasesOk n = true) :
    (collectedNames n).map lastSegment = specBoundNames n := by
  cases n with
  | imp names =>
    rw [collectedNames, specBoundNames, List.map_map]
    refine List.map_congr_left (fun a ha => ?_)
    rw [nodeAliasesOk, List.all_eq_true] at h
    have ha' := h a ha
    rw [aliasAsnameOk] at ha'
    cases hy : a.asname with
    | none => simp [Function.comp, hy]
    | some s =>
      rw [hy] at ha'
      simp [Function.comp, hy, lastSegment_noDot ha']
  | impFrom level module names =>
    rw [nodeAliasesOk, List.all_eq_true] at h
    have key : ∀ a ∈ names, lastSegment (a.asname.getD a.name) = a.asname.getD a.name := by
      intro a ha
      have ha' := h a ha
      rw [Bool.and_eq_true, aliasAsnameOk] at ha'
      cases hy : a.asname with
      | none => simpa using lastSegment_noDot ha'.1
      | some s =>
        rw [hy] at ha'
        simpa using lastSegment_noDot ha'.2
    rw [collectedNames, specBoundNames]
    by_cases h0 : (level == 0) = true
    · rw [if_pos h0]
      by_cases hm : pyTruthy module = true
      · rw [if_pos hm, List.map_map]
        exact List.map_congr_left (fun a ha => key a ha)
      · rw [if_neg hm, List.map_nil]
    · rw [if_neg h0, List.map_map]
      exact List.map_congr_left (fun a ha => key a ha)
  | assign targets elts lineno endLineno => rfl
  | other => rfl

theorem pySortedSet_empty : pySortedSet ∅ = [] := rfl

theorem extractStrs_error_of_name {elts : List Elt} {x : String}
    (h : Elt.name x ∈ elts) : extractStrs elts = Except.error PyErr.attributeError := by
  induction elts with
  | nil => cases h
  | cons e rest ih =>
    cases e with
    | str s =>
      have h' : Elt.name x ∈ rest := by
        rcases List.mem_cons.mp h with h0 | h0
        · cases h0
        · exact h0
      rw [extractStrs, ih h']
    | name id => rfl

/- Claim theorems. -/

/-- C1: the claim says that with the fix flag disabled the program never
mutates the file, in particular that no declaration is appended when one is
absent.  The code violates this: the append of a freshly generated
declaration (`__init__.py` lines 136-141) is not guarded by `fix` at all, so
a file with imports but no `__all__` is mutated even in report-only mode.
This theorem evaluates the model at that failing input with `fix := false`
and shows the append effect is performed. -/
theorem c1_append_without_fix :
    update_all_in_init ⟨80, false, false⟩
      ⟨"import os", Option.some [Node.imp [⟨"os", Option.none⟩]]⟩ =
    Except.ok ⟨[Diag.missingAll], FileEffect.append "\n__all__ = ['os']\n"⟩ := rfl

/-- C2, counterexample: for the file `import os.path` the claim predicts the
bound name `os` (the first path segment), but `get_all_imports` maps every
collected name through `split(".")[-1]` (`__init__.py` line 43) and returns
`path`, the last segment. -/
theorem c2_counterexample :
    get_all_imports [Node.imp [⟨"os.path", Option.none⟩]] = {"path"} ∧
    get_all_imports_claimed [Node.imp [⟨"os.path", Option.none⟩]] = {"os"} ∧
    ({"path"} : Finset String) ≠ {"os"} := by
  refine ⟨by decide, by decide, by decide⟩

/-- C2, amended: for every parsed file whose `as` renames and from-import
symbol names are dot-free (as every real Python tree guarantees),
`get_all_imports` returns exactly the set the claim describes with "first
path segment" replaced by "last path segment": for a plain import the alias
if given, else the LAST path segment of the module path; for a from-import
the alias if given, else the imported symbol's own name, never the module
path. -/
theorem c2_last_segment (nodes : List Node) (h : wellFormedAliases nodes = true) :
    get_all_imports nodes = get_all_imports_spec nodes := by
  rw [get_all_imports, get_all_imports_spec]
  rw [wellFormedAliases, List.all_eq_true] at h
  congr 1
  induction nodes with
  | nil => rfl
  | cons n ns ih =>
    rw [List.flatMap_cons, List.flatMap_cons, List.map_append]
    rw [collectedNames_map_lastSegment (h n (List.mem_cons_self n ns))]
    rw [ih (fun m hm => h m (List.mem_cons_of_mem n hm))]

/-- C2, witness for the amended theorem at a concrete input combining a
dotted plain import, an aliased import, a relative from-import and an
absolute aliased from-import. -/
theorem c2_last_segment_witness :
    wellFormedAliases
      [Node.imp [⟨"os.path", Option.none⟩], Node.imp [⟨"numpy", Option.some "np"⟩],
        Node.impFrom 1 Option.none [⟨"x", Option.none⟩],
        Node.impFrom 0 (Option.some "a.b") [⟨"y", Option.some "z"⟩]] = true ∧
    get_all_imports
      [Node.imp [⟨"os.path", Option.none⟩], Node.imp [⟨"numpy", Option.some "np"⟩],
        Node.impFrom 1 Option.none [⟨"x", Option.none⟩],
        Node.impFrom 0 (Option.some "a.b") [⟨"y", Option.some "z"⟩]] =
      get_all_imports_spec
        [Node.imp [⟨"os.path", Option.none⟩], Node.imp [⟨"numpy", Option.some "np"⟩],
          Node.impFrom 1 Option.none [⟨"x", Option.none⟩],
          Node.impFrom 0 (Option.some "a.b") [⟨"y", Option.some "z"⟩]] :=
  ⟨by decide, c2_last_segment _ (by decide)⟩

/-- C3, counterexample: a batch of two files whose first file fails to parse.
The claim says the failure is reported per-file and the remaining files are
still processed; in the code the `SyntaxError` of `ast.parse`
(`__init__.py` line 117) is never caught, so the whole batch aborts with the
exception — here the batch result is the propagated error even though the
second file on its own processes cleanly. -/
theorem c3_counterexample :
    check_all_in_paths ⟨80, false, false⟩
      [⟨"def f(:", Option.none⟩,
        ⟨"import os\n__all__ = ['os']",
          Option.some [Node.imp [⟨"os", Option.none⟩],
            Node.assign [Target.name "__all__"] [Elt.str "os"] 2 2]⟩] =
      Except.error PyErr.syntaxError ∧
    update_all_in_init ⟨80, false, false⟩
      ⟨"import os\n__all__ = ['os']",
        Option.some [Node.imp [⟨"os", Option.none⟩],
          Node.assign [Target.name "__all__"] [Elt.str "os"] 2 2]⟩ =
      Except.ok ⟨[], FileEffect.none⟩ := ⟨rfl, rfl⟩

/-- C3, amended: a parse failure in a batch raises an uncaught exception:
the failing file is skipped with no edits, but no per-file diagnostic is
produced and the remaining files of the batch are not processed — the
exception crosses the file boundary and aborts the whole traversal. -/
theorem c3_parse_error_aborts (cfg : Config) (f : PyFile) (fs : List PyFile)
    (hp : f.parse = Option.none) :
    check_all_in_paths cfg (f :: fs) = Except.error PyErr.syntaxError := by
  simp [check_all_in_paths, update_all_in_init, hp]

/-- C3, witness: the amended theorem applied to a concrete unparseable file
followed by a nonempty rest of the batch. -/
theorem c3_parse_error_aborts_witness :
    check_all_in_paths ⟨80, false, false⟩
      [⟨"def f(:", Option.none⟩, ⟨"", Option.some []⟩] =
      Except.error PyErr.syntaxError :=
  c3_parse_error_aborts ⟨80, false, false⟩ ⟨"def f(:", Option.none⟩
    [⟨"", Option.some []⟩] rfl

/-- C5: for every imported set, declared list and exempted set, the
reconciliation of `__init__.py` lines 143-147 yields `missing` and `extra`
sorted lexicographically ascending, a `corrected` list (`updated_all`) that
is sorted ascending with no duplicates, `missing` disjoint from the declared
list, and `extra` disjoint from the imported set. -/
theorem c5_reconciliation (imports noqa : Finset String) (allVar : List String) :
    (missingOf imports allVar noqa).Sorted pyStrLe ∧
    (extraOf imports allVar noqa).Sorted pyStrLe ∧
    (updatedAllOf imports allVar noqa).Sorted pyStrLe ∧
    (updatedAllOf imports allVar noqa).Nodup ∧
    (∀ x ∈ missingOf imports allVar noqa, x ∉ allVar) ∧
    (∀ x ∈ extraOf imports allVar noqa, x ∉ imports) := by
  refine ⟨pySortedSet_sorted _, pySortedSet_sorted _, pySortedSet_sorted _,
    pySortedSet_nodup _, ?_, ?_⟩
  · intro x hx
    rw [missingOf, mem_pySortedSet, Finset.mem_sdiff, Finset.mem_sdiff] at hx
    exact fun hmem => hx.1.2 (List.mem_toFinset.mpr hmem)
  · intro x hx
    rw [extraOf, mem_pySortedSet, Finset.mem_sdiff, Finset.mem_sdiff] at hx
    exact hx.1.2

/-- C8, counterexample: with symbols `["a"]` and maximum length 15, the
single-line rendering `__all__ = ['a']` has length exactly 15 and hence fits
the budget, but `format_all_string` emits the multi-line form: the code's
condition `len("__all__ = [") + len(joined) + 2 <= line_length`
(`__init__.py` line 88) overcounts the closing bracket by one, so the
boundary case is pushed to the multi-line form. -/
theorem c8_counterexample :
    (singleLineForm ["a"] false).length ≤ 15 ∧
    format_all_string ["a"] 15 false ≠ singleLineForm ["a"] false ∧
    format_all_string ["a"] 15 false = multiLineForm ["a"] false := by
  refine ⟨by decide, by decide, rfl⟩

/-- C8, amended: the formatter emits the single-line form exactly when that
rendering's total length is STRICTLY below the line-length budget
(equivalently: length + 1 ≤ budget), otherwise the multi-line form with the
opening bracket on the declaration line, each symbol on its own 4-space
indented line and the closing bracket on its own line; the claim's two
concrete examples (max length 80 gives the single-line form, max length 10
the multi-line form) do hold. -/
theorem c8_strict_budget :
    (∀ (symbols : List String) (lineLength : Nat) (dq : Bool),
      format_all_string symbols lineLength dq =
        if (singleLineForm symbols dq).length + 1 ≤ lineLength then singleLineForm symbols dq
        else multiLineForm symbols dq) ∧
    format_all_string ["a", "bb", "ccc"] 80 false = "__all__ = ['a', 'bb', 'ccc']" ∧
    format_all_string ["a", "bb", "ccc"] 10 false =
      "__all__ = [\n    'a',\n    'bb',\n    'ccc'\n]" := by
  refine ⟨?_, rfl, rfl⟩
  intro symbols n dq
  have hiff : ∀ J : String,
      (("__all__ = [" ++ J ++ "]").length + 1 ≤ n) ↔
        (("__all__ = [" : String).length + J.length + 2 ≤ n) := by
    intro J
    have hb : ("]" : String).length = 1 := rfl
    rw [String.length_append, String.length_append, hb]
  simp only [format_all_string, singleLineForm, multiLineForm]
  exact (if_congr (hiff _) rfl rfl).symm

/-- C9, counterexample: a file whose declaration list contains the bare name
`foo` (not a string literal).  The claim says the program never crashes out
of the per-file processing; in the code `elt.s` (`__init__.py` line 125)
raises an uncaught `AttributeError` on the `Name` element, which aborts the
file's processing (and the batch). -/
theorem c9_counterexample :
    update_all_in_init ⟨80, false, false⟩
      ⟨"__all__ = [foo]\nimport foo",
        Option.some [Node.assign [Target.name "__all__"] [Elt.name "foo"] 1 1,
          Node.imp [⟨"foo", Option.none⟩]]⟩ =
      Except.error PyErr.attributeError := rfl

/-- C9, amended: for every file whose located declaration contains an
element that lacks the `.s` attribute (an `ast.Name`-like non-constant
element), extraction raises an uncaught `AttributeError` that aborts the
per-file processing without reporting the condition as a diagnostic; no
edit is made to the file because the exception precedes any write.  (A
non-string constant element behaves differently — it extracts silently
through the deprecated `.s` alias and the program raises `TypeError`
further down, likewise before any write; that element kind is outside this
embedding, see the `Elt` documentation, and this theorem says nothing about
it.) -/
theorem c9_nonstring_raises (cfg : Config) (f : PyFile) (nodes : List Node) (d : AllDecl)
    (x : String)
    (hp : f.parse = Option.some nodes)
    (hd : findAllAssign nodes = Option.some d)
    (hx : Elt.name x ∈ d.elts) :
    update_all_in_init cfg f = Except.error PyErr.attributeError := by
  simp [update_all_in_init, hp, hd, extractStrs_error_of_name hx]

/-- C9, witness: the amended theorem applied at a concrete file whose
declaration mixes a string element with a `Name` element. -/
theorem c9_nonstring_raises_witness :
    update_all_in_init ⟨80, false, true⟩
      ⟨"__all__ = ['a', foo]",
        Option.some [Node.assign [Target.name "__all__"] [Elt.str "a", Elt.name "foo"] 1 1]⟩ =
      Except.error PyErr.attributeError :=
  c9_nonstring_raises ⟨80, false, true⟩ _
    [Node.assign [Target.name "__all__"] [Elt.str "a", Elt.name "foo"] 1 1]
    ⟨[Elt.str "a", Elt.name "foo"], 1, 1⟩ "foo" rfl rfl (by decide)

/-- C6: for every file whose located export declaration carries the
exempt-all suppression directive on its first line, processing stops with
zero diagnostics and no mutation, for every configuration (in particular in
fix mode) and regardless of any mismatch between the imports and the
declared list (`__init__.py` lines 130-132).  The declaration's elements
must be string literals because their extraction precedes the directive
check. -/
theorem c6_exempt_all_bypass (cfg : Config) (f : PyFile) (nodes : List Node) (d : AllDecl)
    (allVar : List String)
    (hp : f.parse = Option.some nodes)
    (hd : findAllAssign nodes = Option.some d)
    (he : extractStrs d.elts = Except.ok allVar)
    (hn : parse_noqa (lineAt f.source d.lineno) = Option.some Noqa.all) :
    update_all_in_init cfg f = Except.ok ⟨[], FileEffect.none⟩ := by
  simp [update_all_in_init, hp, hd, he, hn]

/-- C6, witness: a concrete file in fix mode whose declaration (`['zzz']`,
bare `# noqa: ALL` on its line) disagrees completely with the imports
(`{x}`), yet the result is no diagnostics and no write. -/
theorem c6_exempt_all_bypass_witness :
    update_all_in_init ⟨80, false, true⟩
      ⟨"from .a import x\n__all__ = ['zzz']  # noqa: ALL",
        Option.some [Node.impFrom 1 Option.none [⟨"x", Option.none⟩],
          Node.assign [Target.name "__all__"] [Elt.str "zzz"] 2 2]⟩ =
      Except.ok ⟨[], FileEffect.none⟩ :=
  c6_exempt_all_bypass ⟨80, false, true⟩ _
    [Node.impFrom 1 Option.none [⟨"x", Option.none⟩],
      Node.assign [Target.name "__all__"] [Elt.str "zzz"] 2 2]
    ⟨[Elt.str "zzz"], 2, 2⟩ ["zzz"] rfl rfl rfl (by decide)

/-- C7: the `is_sorted` check compares the declared symbols in the literal
order they were written (`all_var == sorted(all_var)`, `__init__.py`
line 145 on the list extracted at line 125): whenever the written order
differs from its lexicographic sort and no exempt-all directive applies, the
not-sorted diagnostic is reported — independently of any set-enumeration of
the declared symbols. -/
theorem c7_unsorted_written_order (cfg : Config) (f : PyFile) (nodes : List Node) (d : AllDecl)
    (allVar : List String)
    (hp : f.parse = Option.some nodes)
    (hd : findAllAssign nodes = Option.some d)
    (he : extractStrs d.elts = Except.ok allVar)
    (hn : parse_noqa (lineAt f.source d.lineno) ≠ Option.some Noqa.all)
    (hu : allVar ≠ pySortedList allVar) :
    Diag.notSorted ∈ resultDiags (update_all_in_init cfg f) := by
  have hbe : (allVar == pySortedList allVar) = false := beq_eq_false_iff_ne.mpr hu
  have hpd : ∀ noqa : Finset String, Diag.notSorted ∈
      (processDecl cfg f.source (get_all_imports nodes) allVar d.lineno d.endLineno noqa).diags := by
    intro noqa
    simp only [processDecl, hbe]
    split
    · simp [print_errors]
    · simp [print_errors]
  cases hq : parse_noqa (lineAt f.source d.lineno) with
  | none =>
    simp only [resultDiags, update_all_in_init, hp, hd, he, hq]
    exact hpd ∅
  | some nq =>
    cases nq with
    | all => exact absurd hq hn
    | names s =>
      simp only [resultDiags, update_all_in_init, hp, hd, he, hq]
      exact hpd s

/-- C7, witness: the written list `['b', 'a']` is unsorted even though its
de-duplicated set `{a, b}` enumerates in sorted order; the not-sorted
diagnostic is reported. -/
theorem c7_unsorted_written_order_witness :
    Diag.notSorted ∈ resultDiags (update_all_in_init ⟨80, false, false⟩
      ⟨"import a\nimport b\n__all__ = ['b', 'a']",
        Option.some [Node.imp [⟨"a", Option.none⟩], Node.imp [⟨"b", Option.none⟩],
          Node.assign [Target.name "__all__"] [Elt.str "b", Elt.str "a"] 3 3]⟩) :=
  c7_unsorted_written_order ⟨80, false, false⟩ _
    [Node.imp [⟨"a", Option.none⟩], Node.imp [⟨"b", Option.none⟩],
      Node.assign [Target.name "__all__"] [Elt.str "b", Elt.str "a"] 3 3]
    ⟨[Elt.str "b", Elt.str "a"], 3, 3⟩ ["b", "a"] rfl rfl rfl (by decide) (by decide)

/-- C10: for every file whose written declaration list is already sorted and
whose underlying symbol set equals the imported set, no diagnostics are
printed and no rewrite occurs, for every configuration including fix mode —
in particular duplicate entries in the written list never trigger a report
or a rewrite and are silently preserved. -/
theorem c10_duplicates_silent (cfg : Config) (f : PyFile) (nodes : List Node) (d : AllDecl)
    (allVar : List String)
    (hp : f.parse = Option.some nodes)
    (hd : findAllAssign nodes = Option.some d)
    (he : extractStrs d.elts = Except.ok allVar)
    (hs : allVar = pySortedList allVar)
    (heq : allVar.toFinset = get_all_imports nodes) :
    update_all_in_init cfg f = Except.ok ⟨[], FileEffect.none⟩ := by
  have hbe : (allVar == pySortedList allVar) = true := beq_iff_eq.mpr hs
  have hmiss : ∀ noqa : Finset String, missingOf (get_all_imports nodes) allVar noqa = [] := by
    intro noqa
    rw [missingOf, ← heq, Finset.sdiff_self, Finset.empty_sdiff]
    exact pySortedSet_empty
  have hex : ∀ noqa : Finset String, extraOf (get_all_imports nodes) allVar noqa = [] := by
    intro noqa
    rw [extraOf, ← heq, Finset.sdiff_self, Finset.empty_sdiff]
    exact pySortedSet_empty
  have hpd : ∀ noqa : Finset String,
      processDecl cfg f.source (get_all_imports nodes) allVar d.lineno d.endLineno noqa =
        ⟨[], FileEffect.none⟩ := by
    intro noqa
    simp [processDecl, hbe, hmiss noqa, hex noqa, print_errors]
  cases hq : parse_noqa (lineAt f.source d.lineno) with
  | none =>
    simp only [update_all_in_init, hp, hd, he, hq]
    rw [hpd ∅]
  | some nq =>
    cases nq with
    | all => simp [update_all_in_init, hp, hd, he, hq]
    | names s =>
      simp only [update_all_in_init, hp, hd, he, hq]
      rw [hpd s]

/-- C10, witness: a file in fix mode whose declaration is the sorted list
`['a', 'a', 'b']` with a duplicate entry, importing exactly `{a, b}`: no
diagnostics, no write. -/
theorem c10_duplicates_silent_witness :
    update_all_in_init ⟨80, false, true⟩
      ⟨"import a\nimport b\n__all__ = ['a', 'a', 'b']",
        Option.some [Node.imp [⟨"a", Option.none⟩], Node.imp [⟨"b", Option.none⟩],
          Node.assign [Target.name "__all__"] [Elt.str "a", Elt.str "a", Elt.str "b"] 3 3]⟩ =
      Except.ok ⟨[], FileEffect.none⟩ :=
  c10_duplicates_silent ⟨80, false, true⟩ _
    [Node.imp [⟨"a", Option.none⟩], Node.imp [⟨"b", Option.none⟩],
      Node.assign [Target.name "__all__"] [Elt.str "a", Elt.str "a", Elt.str "b"] 3 3]
    ⟨[Elt.str "a", Elt.str "a", Elt.str "b"], 3, 3⟩ ["a", "a", "b"]
    rfl rfl rfl (by decide) (by decide)

/-- C4: for every file whose located declaration is rewritten in fix mode
(no suppression directive, a discrepancy present, the span's line metadata
consistent with the file), the new content is exactly the file's line
sequence with the 1-based inclusive span `lineno..endLineno` replaced by the
single formatted declaration block: the lines before the span and the lines
after the span are preserved unchanged. -/
theorem c4_rewrite_span (cfg : Config) (f : PyFile) (nodes : List Node) (d : AllDecl)
    (allVar : List String)
    (hp : f.parse = Option.some nodes)
    (hd : findAllAssign nodes = Option.some d)
    (he : extractStrs d.elts = Except.ok allVar)
    (hn : parse_noqa (lineAt f.source d.lineno) = Option.none)
    (hfix : cfg.fix = true)
    (hdisc : allVar ≠ pySortedList allVar ∨
      missingOf (get_all_imports nodes) allVar ∅ ≠ [] ∨
      extraOf (get_all_imports nodes) allVar ∅ ≠ [])
    (hl : 1 ≤ d.lineno)
    (hspan : d.lineno - 1 ≤ (pySplitlines f.source).length) :
    update_all_in_init cfg f = Except.ok
      ⟨print_errors (allVar == pySortedList allVar)
          (missingOf (get_all_imports nodes) allVar ∅) (extraOf (get_all_imports nodes) allVar ∅),
        FileEffect.overwrite (String.intercalate "\n"
          (rewriteLines f.source d.lineno d.endLineno
            (format_all_string (updatedAllOf (get_all_imports nodes) allVar ∅)
              cfg.lineLength cfg.useDoubleQuotes)))⟩ ∧
    (rewriteLines f.source d.lineno d.endLineno
        (format_all_string (updatedAllOf (get_all_imports nodes) allVar ∅)
          cfg.lineLength cfg.useDoubleQuotes)).take (d.lineno - 1) =
      (pySplitlines f.source).take (d.lineno - 1) ∧
    (rewriteLines f.source d.lineno d.endLineno
        (format_all_string (updatedAllOf (get_all_imports nodes) allVar ∅)
          cfg.lineLength cfg.useDoubleQuotes)).drop d.lineno =
      (pySplitlines f.source).drop d.endLineno := by
  have hcond : (cfg.fix && (!(allVar == pySortedList allVar) ||
      !(missingOf (get_all_imports nodes) allVar ∅).isEmpty ||
      !(extraOf (get_all_imports nodes) allVar ∅).isEmpty)) = true := by
    rcases hdisc with h | h | h
    · simp [hfix, beq_eq_false_iff_ne.mpr h]
    · simp [hfix, List.isEmpty_eq_false_iff_exists_mem.mpr
        (List.exists_mem_of_ne_nil _ h)]
    · simp [hfix, List.isEmpty_eq_false_iff_exists_mem.mpr
        (List.exists_mem_of_ne_nil _ h)]
  have hlen : ((pySplitlines f.source).take (d.lineno - 1)).length = d.lineno - 1 := by
    rw [List.length_take]
    omega
  refine ⟨?_, ?_, ?_⟩
  · simp only [update_all_in_init, hp, hd, he, hn]
    simp only [processDecl, hcond, if_true]
  · rw [rewriteLines, List.append_assoc]
    exact List.take_left' hlen
  · rw [rewriteLines]
    refine List.drop_left' ?_
    rw [List.length_append, hlen, List.length_singleton]
    omega

/-- C4, witness: a multi-line declaration spanning lines 1-4 of a six-line
file; the rewrite replaces exactly that span with the formatted block and
keeps the two trailing lines. -/
theorem c4_rewrite_span_witness :
    update_all_in_init ⟨80, false, true⟩
      ⟨"__all__ = [\n    'b',\n    'a'\n]\nimport a\nimport b\n",
        Option.some [Node.assign [Target.name "__all__"] [Elt.str "b", Elt.str "a"] 1 4,
          Node.imp [⟨"a", Option.none⟩], Node.imp [⟨"b", Option.none⟩]]⟩ =
      Except.ok ⟨[Diag.notSorted, Diag.noqaNote "ALL"],
        FileEffect.overwrite "__all__ = ['a', 'b']\nimport a\nimport b"⟩ ∧
    (rewriteLines "__all__ = [\n    'b',\n    'a'\n]\nimport a\nimport b\n" 1 4
        "__all__ = ['a', 'b']").take 0 =
      (pySplitlines "__all__ = [\n    'b',\n    'a'\n]\nimport a\nimport b\n").take 0 ∧
    (rewriteLines "__all__ = [\n    'b',\n    'a'\n]\nimport a\nimport b\n" 1 4
        "__all__ = ['a', 'b']").drop 1 =
      (pySplitlines "__all__ = [\n    'b',\n    'a'\n]\nimport a\nimport b\n").drop 4 :=
  c4_rewrite_span ⟨80, false, true⟩
    ⟨"__all__ = [\n    'b',\n    'a'\n]\nimport a\nimport b\n",
      Option.some [Node.assign [Target.name "__all__"] [Elt.str "b", Elt.str "a"] 1 4,
        Node.imp [⟨"a", Option.none⟩], Node.imp [⟨"b", Option.none⟩]]⟩
    [Node.assign [Target.name "__all__"] [Elt.str "b", Elt.str "a"] 1 4,
      Node.imp [⟨"a", Option.none⟩], Node.imp [⟨"b", Option.none⟩]]
    ⟨[Elt.str "b", Elt.str "a"], 1, 4⟩ ["b", "a"]
    rfl rfl rfl (by decide) rfl (Or.inl (by decide)) (by decide) (by decide)

end CheckInitAll
